import Mathlib

/-!
Verification of the drone-core SPSC channel sources against their
natural-language specification.

Shallow embedding conventions:
- The platform word `usize` is modelled as a 64-bit word: a state word is a
  `Nat` kept below `2 ^ 64`, and every operation that wraps in the source is
  written with an explicit `% 2 ^ 64`.
- Continuation handles (`Waker` / `Task`) are modelled as `Option Unit` cells:
  `some ()` means a handle is stored, invoking it is recorded by a `Bool`.
- Fallible operations return `Except`.
- Code of the repository that is not among the given source files (the tick
  module header with its constants, the generic `update` CAS primitive and
  `drop_tx` of `sync/spsc/mod.rs`) is modelled from the specification; each
  such definition carries a doc comment starting with `Modelled from the
  spec:`.  Everything else is translated directly from the source files.
-/

namespace DroneCore

/-! ## Pulse channel (`src/sync/spsc/pulse/mod.rs`) -/

namespace Pulse

/-- `const TX_WAKER_STORED: usize = 1 << 0;` -/
def TX_WAKER_STORED : Nat := 1 <<< 0

/-- `const RX_WAKER_STORED: usize = 1 << 1;` -/
def RX_WAKER_STORED : Nat := 1 <<< 1

/-- `const COMPLETE: usize = 1 << 2;` -/
def COMPLETE : Nat := 1 <<< 2

/-- `const OPTION_BITS: u32 = 3;` -/
def OPTION_BITS : Nat := 3

/-- `pub const MAX_CAPACITY: usize = 1 << size_of::<usize>() as u32 * 8 - OPTION_BITS;`
With `usize` modelled as 64-bit, `size_of::<usize>() = 8`.  Rust operator
precedence parses the right-hand side as `1 << (8 * 8 - OPTION_BITS)`. -/
def MAX_CAPACITY : Nat := 1 <<< (8 * 8 - OPTION_BITS)

/-- The shared channel block `struct Inner<E>`: the atomic state word, the
error cell, and the two waker cells (`MaybeUninit::zeroed()` is modelled as
`none`, i.e. no valid handle stored). -/
structure Inner (E : Type) where
  state : Nat
  err : Option E
  rx_waker : Option Unit
  tx_waker : Option Unit

/-- `Inner::new()`: `state: AtomicUsize::new(0)`, `err: UnsafeCell::new(None)`,
zeroed waker cells. -/
def Inner.new (E : Type) : Inner E :=
  Inner.mk 0 none none none

/-- The sending half; holds the shared block. -/
structure Sender (E : Type) where
  inner : Inner E

/-- The receiving half; holds the shared block. -/
structure Receiver (E : Type) where
  inner : Inner E

/-- `pub fn channel<E>() -> (Sender<E>, Receiver<E>)`: one freshly allocated
block is shared by both halves (`Arc::clone`); in the sequential embedding the
sharing is modelled by both halves carrying the same block value. -/
def channel (E : Type) : Sender E × Receiver E :=
  let inner := Inner.new E
  (Sender.mk inner, Receiver.mk inner)

end Pulse

/-! ## Fixed-width integer abstraction (`src/bitfield/bits.rs`) -/

namespace Bits

/-- The operations that the `Bits` trait supplies for one concrete integer
type: `size_of::<$type>()` in bytes, `from_usize` (the Rust cast
`bits as $type`, which truncates to the type's width), `width()` and
`one()`. -/
structure Impl where
  size_of : Nat
  from_usize : Nat → Nat
  width : Nat
  one : Nat

/-- `impl Bits for u8`: `from_usize` is `bits as u8` (truncation to 8 bits),
`width` is `size_of::<u8>() as u8 * 8`, `one` is `1`. -/
def u8 : Impl :=
  Impl.mk 1 (fun bits => bits % 2 ^ 8) (1 * 8) 1

/-- `impl Bits for u16`. -/
def u16 : Impl :=
  Impl.mk 2 (fun bits => bits % 2 ^ 16) (2 * 8) 1

/-- `impl Bits for u32`. -/
def u32 : Impl :=
  Impl.mk 4 (fun bits => bits % 2 ^ 32) (4 * 8) 1

/-- `impl Bits for u64`. -/
def u64 : Impl :=
  Impl.mk 8 (fun bits => bits % 2 ^ 64) (8 * 8) 1

end Bits

/-! ## Responders (`src/io/responder.rs`) -/

namespace Responder

/-- `pub struct NoResp;` -/
structure NoResp where

/-- `pub struct PlainResp<T>(pub T);` -/
structure PlainResp (T : Type) where
  val : T

/-- `impl Responder for NoResp`: `fn respond(self, _sess: &S) {}`. -/
def NoResp.respond {S : Type} (_r : NoResp) (_sess : S) : Unit := ()

/-- `impl Responder for PlainResp<T>`: `fn respond(self, _sess: &S) -> T { self.0 }`. -/
def PlainResp.respond {S T : Type} (r : PlainResp T) (_sess : S) : T := r.val

end Responder

/-! ## Tick channel (`src/sync/spsc/tick/sender.rs`)

`sender.rs` imports `Inner`, `COMPLETE`, `LOCK_BITS`, `LOCK_MASK` and
`RX_LOCK` from the tick module header, which is not among the given source
files; those constants and the shared `SpscInner` machinery are modelled from
the specification. -/

namespace Tick

/-- Modelled from the spec: `COMPLETE` of the tick module header (not under
`src/`); §3 places `COMPLETE` at bit 2 of the state word. -/
def COMPLETE : Nat := 1 <<< 2

/-- Modelled from the spec: `RX_LOCK` of the tick module header (not under
`src/`); §3 reserves the notification-lock bit in the payload region directly
above the `OPTION_BITS = 3` flag bits, i.e. at bit 3. -/
def RX_LOCK : Nat := 1 <<< 3

/-- Modelled from the spec: `LOCK_BITS` of the tick module header (not under
`src/`); the flag bits together with `RX_LOCK` occupy the low 4 bits, and the
payload counter sits above them (§3, §4.3). -/
def LOCK_BITS : Nat := 4

/-- Modelled from the spec: `LOCK_MASK` of the tick module header (not under
`src/`); the mask covering the low `LOCK_BITS` bits. -/
def LOCK_MASK : Nat := (1 <<< LOCK_BITS) - 1

/-- `pub enum SendTickError { Canceled, Overflow }` -/
inductive SendTickError where
  | Canceled
  | Overflow
deriving DecidableEq

/-- The shared channel block of the tick flavor: the state word, the error
cell, and the consumer continuation cell `rx_task`. -/
structure Inner (E : Type) where
  state : Nat
  err : Option E
  rx_task : Option Unit

/-- Modelled from the spec: `SpscInner::is_canceled` (`sync/spsc/mod.rs`, not
under `src/`); §4.2: cancellation probes read `COMPLETE` without mutating
state. -/
def Inner.is_canceled {E : Type} (i : Inner E) : Bool :=
  i.state &&& COMPLETE != 0

/-- Modelled from the spec: the generic CAS-retry `update` primitive of the
SPSC state machine (`sync/spsc/mod.rs`, not under `src/`); §4.1: the transform
is applied to the current state and returns either a new state plus a post-CAS
value, which is committed, or a domain error that aborts the update without
mutating state.  Sequentially the weak CAS succeeds on the loaded state. -/
def update {ε α : Type} (s : Nat) (f : Nat → Except ε (Nat × α)) :
    Except ε α × Nat :=
  match f s with
  | Except.error e => (Except.error e, s)
  | Except.ok (t, a) => (Except.ok a, t)

/-- Embedding of the Rust expression `(s as isize >> k) as usize` for a 64-bit
word and `s < 2 ^ 64`: arithmetic shift right.  When bit 63 is clear this is a
logical shift; when bit 63 is set the vacated high `k` bits are filled with
ones, which adds `2 ^ 64 - 2 ^ (64 - k)`. -/
def asr (s k : Nat) : Nat :=
  if s < 2 ^ 63 then s >>> k else s >>> k + (2 ^ 64 - 2 ^ (64 - k))

/-- The transform closure passed to `update` by `Inner::send_tick`
(sender.rs lines 98-121): check `COMPLETE`, arithmetically shift the state
right by `LOCK_BITS`, increment with wrapping, fail with `Overflow` on wrap to
zero, acquire `RX_LOCK` if it is free, shift the counter back up and merge the
lock bits; the post-CAS value is the committed state when the lock was newly
acquired, `none` otherwise. -/
def send_tick_transform (state0 : Nat) : Except SendTickError (Nat × Option Nat) :=
  let lock := state0 &&& LOCK_MASK
  if lock &&& COMPLETE ≠ 0 then Except.error SendTickError.Canceled
  else
    let state1 := asr state0 LOCK_BITS
    let state2 := (state1 + 1) % 2 ^ 64
    if state2 = 0 then Except.error SendTickError.Overflow
    else
      let rx_locked := lock &&& RX_LOCK = 0
      let lock1 := if rx_locked then lock ||| RX_LOCK else lock
      let state3 := (state2 <<< LOCK_BITS) % 2 ^ 64
      let state4 := state3 ||| lock1
      Except.ok (state4, if rx_locked then some state4 else none)

/-- Outcome of one `send_tick` call: the returned result, the final state
word, and whether a stored consumer continuation was invoked. -/
structure SendTickResult where
  result : Except SendTickError Unit
  state : Nat
  notified : Bool

/-- `Inner::send_tick` (sender.rs lines 96-131): run the transform through
`update`; when it committed a state with `RX_LOCK` newly acquired, notify the
stored consumer continuation (if any) and clear `RX_LOCK` in a follow-up
`update` that XORs it out. -/
def send_tick (rx_task : Option Unit) (state0 : Nat) : SendTickResult :=
  match update state0 send_tick_transform with
  | (Except.error e, s1) => SendTickResult.mk (Except.error e) s1 false
  | (Except.ok none, s1) => SendTickResult.mk (Except.ok ()) s1 false
  | (Except.ok (some st), _s1) =>
    match update st (fun t => (Except.ok (t ^^^ RX_LOCK, ()) : Except Unit (Nat × Unit))) with
    | (_, s2) => SendTickResult.mk (Except.ok ()) s2 rx_task.isSome

/-- `Inner::send_err` (sender.rs lines 133-141): if the channel is canceled,
hand the error back; otherwise store it in the error cell. -/
def Inner.send_err {E : Type} (i : Inner E) (err : E) : Except E Unit × Inner E :=
  if i.is_canceled then (Except.error err, i)
  else (Except.ok (), Inner.mk i.state (some err) i.rx_task)

/-- The sending half; holds the shared block. -/
structure Sender (E : Type) where
  inner : Inner E

/-- Modelled from the spec: `SpscInner::drop_tx` (`sync/spsc/mod.rs`, not
under `src/`); §4.2: producer-side drop sets `COMPLETE` (idempotent, one
atomic update) and wakes a registered consumer if present.  The returned
`Bool` records whether a consumer continuation was woken. -/
def Inner.drop_tx {E : Type} (i : Inner E) : Inner E × Bool :=
  (Inner.mk (i.state ||| COMPLETE) i.err i.rx_task, i.rx_task.isSome)

/-- `Sender::send_err` (sender.rs lines 52-54) takes `self` by value, so after
`Inner::send_err` runs, the sender is dropped and `drop_tx` executes.  Returns
the result, the final block, and whether a consumer was woken. -/
def Sender.send_err {E : Type} (tx : Sender E) (err : E) :
    Except E Unit × Inner E × Bool :=
  match tx.inner.send_err err with
  | (r, i1) =>
    match i1.drop_tx with
    | (i2, woke) => (r, i2, woke)

end Tick

/-! ## Bitwise helper lemmas -/

/-- Masking with the low 4 bits commutes with testing any single bit below 4. -/
theorem and_mask15_and_two_pow (s i : Nat) (hi : i < 4) :
    (s &&& 15) &&& 2 ^ i = s &&& 2 ^ i := by
  apply Nat.eq_of_testBit_eq
  intro j
  simp only [Nat.testBit_and, show (15 : Nat) = 2 ^ 4 - 1 from rfl,
    Nat.testBit_two_pow_sub_one, Nat.testBit_two_pow]
  by_cases hj : i = j
  · subst hj
    simp [hi]
  · simp [hj]

/-- A single-bit mask test is a `testBit`. -/
theorem and_two_pow_eq_zero_iff (x i : Nat) :
    x &&& 2 ^ i = 0 ↔ x.testBit i = false := by
  rw [Nat.and_two_pow]
  cases h : x.testBit i <;> simp [(Nat.two_pow_pos i).ne']

/-- OR of a shifted value with a small value is addition. -/
theorem mul_pow_add_lor (k q r : Nat) (hr : r < 2 ^ k) :
    (2 ^ k * q) ||| r = 2 ^ k * q + r := by
  apply Nat.eq_of_testBit_eq
  intro j
  rw [Nat.testBit_or, Nat.testBit_mul_pow_two_add q hr j]
  have h0 : (2 ^ k * q).testBit j = if j < k then false else q.testBit (j - k) := by
    have h := Nat.testBit_mul_pow_two_add q (Nat.two_pow_pos k) j
    simpa using h
  rw [h0]
  by_cases hj : j < k
  · simp [hj]
  · have hrj : r.testBit j = false :=
      Nat.testBit_lt_two_pow
        (lt_of_lt_of_le hr (Nat.pow_le_pow_right (by norm_num) (le_of_not_lt hj)))
    simp [hj, hrj]

/-- XORing out bit 3 from a state word whose low 4 bits are `r + 8` with
`r < 8` recovers `r`. -/
theorem mul_pow_add_xor_eight (q r : Nat) (hr : r < 8) :
    (2 ^ 4 * q + (r + 8)) ^^^ 8 = 2 ^ 4 * q + r := by
  apply Nat.eq_of_testBit_eq
  intro j
  rw [Nat.testBit_xor]
  have h1 : r + 8 < 2 ^ 4 := by omega
  have h2 : r < 2 ^ 4 := by omega
  rw [Nat.testBit_mul_pow_two_add q h1 j, Nat.testBit_mul_pow_two_add q h2 j,
    show (8 : Nat) = 2 ^ 3 from rfl, Nat.testBit_two_pow]
  by_cases hj : j < 4
  · simp only [if_pos hj]
    interval_cases j <;> interval_cases r <;> decide
  · have h3j : (3 : Nat) ≠ j := by omega
    simp [hj, h3j]

/-- Setting a bit by OR makes the mask test of that bit nonzero. -/
theorem lor_two_pow_and_ne_zero (x i : Nat) : (x ||| 2 ^ i) &&& 2 ^ i ≠ 0 := by
  rw [Ne, and_two_pow_eq_zero_iff]
  simp [Nat.testBit_or, Nat.testBit_two_pow_self]

/-! ## Arithmetic of the tick transform -/

/-- The wrapping increment of the arithmetically shifted state word is zero
exactly when the 60-bit payload counter is all ones. -/
theorem asr_succ_mod_eq_zero_iff (s : Nat) (hs : s < 2 ^ 64) :
    (Tick.asr s Tick.LOCK_BITS + 1) % 2 ^ 64 = 0 ↔ s / 2 ^ 4 = 2 ^ 60 - 1 := by
  simp only [Tick.asr, Tick.LOCK_BITS, Nat.shiftRight_eq_div_pow]
  by_cases h63 : s < 2 ^ 63
  · rw [if_pos h63]
    norm_num
    omega
  · rw [if_neg h63]
    norm_num
    omega

/-- Closed form of the shift-back step of the tick transform: on a
non-overflowing state it re-positions the incremented payload counter. -/
theorem asr_succ_shift_back (s : Nat) (hs : s < 2 ^ 64) (hne : s / 2 ^ 4 ≠ 2 ^ 60 - 1) :
    (((Tick.asr s Tick.LOCK_BITS + 1) % 2 ^ 64) <<< Tick.LOCK_BITS) % 2 ^ 64 =
      2 ^ 4 * (s / 2 ^ 4 + 1) := by
  simp only [Tick.asr, Tick.LOCK_BITS, Nat.shiftRight_eq_div_pow, Nat.shiftLeft_eq]
  by_cases h63 : s < 2 ^ 63
  · rw [if_pos h63]
    norm_num
    omega
  · rw [if_neg h63]
    norm_num
    omega

/-- The tick transform aborts with `Canceled` when `COMPLETE` is set. -/
theorem send_tick_transform_canceled (s : Nat) (hc : s &&& Tick.COMPLETE ≠ 0) :
    Tick.send_tick_transform s = Except.error Tick.SendTickError.Canceled := by
  have hg : (s &&& Tick.LOCK_MASK) &&& Tick.COMPLETE = s &&& Tick.COMPLETE := by
    rw [show Tick.LOCK_MASK = (15 : Nat) from rfl, show Tick.COMPLETE = 2 ^ 2 from rfl]
    exact and_mask15_and_two_pow s 2 (by norm_num)
  simp only [Tick.send_tick_transform, hg]
  rw [if_pos hc]

/-- The tick transform aborts with `Overflow` exactly on the all-ones payload
counter (given `COMPLETE` clear). -/
theorem send_tick_transform_overflow (s : Nat) (hs : s < 2 ^ 64)
    (hc : s &&& Tick.COMPLETE = 0) (hm : s / 2 ^ 4 = 2 ^ 60 - 1) :
    Tick.send_tick_transform s = Except.error Tick.SendTickError.Overflow := by
  have hg : (s &&& Tick.LOCK_MASK) &&& Tick.COMPLETE = s &&& Tick.COMPLETE := by
    rw [show Tick.LOCK_MASK = (15 : Nat) from rfl, show Tick.COMPLETE = 2 ^ 2 from rfl]
    exact and_mask15_and_two_pow s 2 (by norm_num)
  have hz : (Tick.asr s Tick.LOCK_BITS + 1) % 2 ^ 64 = 0 :=
    (asr_succ_mod_eq_zero_iff s hs).mpr hm
  simp only [Tick.send_tick_transform, hg, hc]
  rw [if_neg (by simp), if_pos hz]

/-- Closed form of the tick transform on a successful send: the payload
counter is incremented in place, the flag bits are carried over, and
`RX_LOCK` is acquired when it was free. -/
theorem send_tick_transform_success (s : Nat) (hs : s < 2 ^ 64)
    (hc : s &&& Tick.COMPLETE = 0) (hne : s / 2 ^ 4 ≠ 2 ^ 60 - 1) :
    Tick.send_tick_transform s =
      if s &&& Tick.RX_LOCK = 0 then
        Except.ok (2 ^ 4 * (s / 2 ^ 4 + 1) + (s % 2 ^ 4 + 8),
          some (2 ^ 4 * (s / 2 ^ 4 + 1) + (s % 2 ^ 4 + 8)))
      else
        Except.ok (2 ^ 4 * (s / 2 ^ 4 + 1) + s % 2 ^ 4, none) := by
  have hg : (s &&& Tick.LOCK_MASK) &&& Tick.COMPLETE = s &&& Tick.COMPLETE := by
    rw [show Tick.LOCK_MASK = (15 : Nat) from rfl, show Tick.COMPLETE = 2 ^ 2 from rfl]
    exact and_mask15_and_two_pow s 2 (by norm_num)
  have hg2 : (s &&& Tick.LOCK_MASK) &&& Tick.RX_LOCK = s &&& Tick.RX_LOCK := by
    rw [show Tick.LOCK_MASK = (15 : Nat) from rfl, show Tick.RX_LOCK = 2 ^ 3 from rfl]
    exact and_mask15_and_two_pow s 3 (by norm_num)
  have hmask : s &&& Tick.LOCK_MASK = s % 2 ^ 4 := by
    rw [show Tick.LOCK_MASK = 2 ^ 4 - 1 from rfl, Nat.and_pow_two_sub_one_eq_mod]
  have hwrap : ¬(Tick.asr s Tick.LOCK_BITS + 1) % 2 ^ 64 = 0 := by
    rw [asr_succ_mod_eq_zero_iff s hs]
    exact hne
  have hshift := asr_succ_shift_back s hs hne
  simp only [Tick.send_tick_transform]
  rw [hg, hc, if_neg (by simp : ¬(0 : Nat) ≠ 0), if_neg hwrap, hg2, hmask, hshift]
  by_cases h3 : s &&& Tick.RX_LOCK = 0
  · have hlow : s % 2 ^ 4 < 8 := by
      have hb := (and_two_pow_eq_zero_iff s 3).mp
        (by rw [show (2 : Nat) ^ 3 = Tick.RX_LOCK from rfl]; exact h3)
      rw [Nat.testBit_to_div_mod, decide_eq_false_iff_not] at hb
      omega
    have hor1 : (s % 2 ^ 4) ||| Tick.RX_LOCK = s % 2 ^ 4 + 8 := by
      rw [show Tick.RX_LOCK = (8 : Nat) from rfl, Nat.lor_comm,
        show (8 : Nat) = 2 ^ 3 * 1 from rfl,
        mul_pow_add_lor 3 1 (s % 2 ^ 4) (by omega)]
      omega
    have hor2 : 2 ^ 4 * (s / 2 ^ 4 + 1) ||| (s % 2 ^ 4 + 8) =
        2 ^ 4 * (s / 2 ^ 4 + 1) + (s % 2 ^ 4 + 8) :=
      mul_pow_add_lor 4 (s / 2 ^ 4 + 1) (s % 2 ^ 4 + 8) (by omega)
    rw [if_pos h3, if_pos h3, if_pos h3, hor1, hor2]
  · have hor2 : 2 ^ 4 * (s / 2 ^ 4 + 1) ||| s % 2 ^ 4 =
        2 ^ 4 * (s / 2 ^ 4 + 1) + s % 2 ^ 4 :=
      mul_pow_add_lor 4 (s / 2 ^ 4 + 1) (s % 2 ^ 4)
        (Nat.mod_lt s (by norm_num))
    rw [if_neg h3, if_neg h3, if_neg h3, hor2]

/-- `send_tick` on a completed channel: error, untouched state, no wake. -/
theorem send_tick_canceled_eq (rx_task : Option Unit) (s : Nat)
    (hc : s &&& Tick.COMPLETE ≠ 0) :
    Tick.send_tick rx_task s =
      Tick.SendTickResult.mk (Except.error Tick.SendTickError.Canceled) s false := by
  simp only [Tick.send_tick, Tick.update, send_tick_transform_canceled s hc]

/-- `send_tick` on an all-ones payload counter: overflow error, untouched
state, no wake. -/
theorem send_tick_overflow_eq (rx_task : Option Unit) (s : Nat) (hs : s < 2 ^ 64)
    (hc : s &&& Tick.COMPLETE = 0) (hm : s / 2 ^ 4 = 2 ^ 60 - 1) :
    Tick.send_tick rx_task s =
      Tick.SendTickResult.mk (Except.error Tick.SendTickError.Overflow) s false := by
  simp only [Tick.send_tick, Tick.update, send_tick_transform_overflow s hs hc hm]

/-- Closed form of a successful `send_tick`: the final state carries the
incremented payload counter over unchanged low flag bits, and a stored
consumer continuation is notified exactly when `RX_LOCK` was free. -/
theorem send_tick_success_eq (rx_task : Option Unit) (s : Nat) (hs : s < 2 ^ 64)
    (hc : s &&& Tick.COMPLETE = 0) (hne : s / 2 ^ 4 ≠ 2 ^ 60 - 1) :
    Tick.send_tick rx_task s =
      Tick.SendTickResult.mk (Except.ok ())
        (2 ^ 4 * (s / 2 ^ 4 + 1) + s % 2 ^ 4)
        (if s &&& Tick.RX_LOCK = 0 then rx_task.isSome else false) := by
  by_cases h3 : s &&& Tick.RX_LOCK = 0
  · have hlow : s % 2 ^ 4 < 8 := by
      have hb := (and_two_pow_eq_zero_iff s 3).mp
        (by rw [show (2 : Nat) ^ 3 = Tick.RX_LOCK from rfl]; exact h3)
      rw [Nat.testBit_to_div_mod, decide_eq_false_iff_not] at hb
      omega
    have hxor : (2 ^ 4 * (s / 2 ^ 4 + 1) + (s % 2 ^ 4 + 8)) ^^^ Tick.RX_LOCK =
        2 ^ 4 * (s / 2 ^ 4 + 1) + s % 2 ^ 4 := by
      rw [show Tick.RX_LOCK = (8 : Nat) from rfl]
      exact mul_pow_add_xor_eight (s / 2 ^ 4 + 1) (s % 2 ^ 4) hlow
    simp only [Tick.send_tick, Tick.update, send_tick_transform_success s hs hc hne,
      if_pos h3, hxor]
  · simp only [Tick.send_tick, Tick.update, send_tick_transform_success s hs hc hne,
      if_neg h3]

/-- A low bit of a state word is a low bit of its low half-byte. -/
theorem state_low_bit_eq (q r j : Nat) (hr : r < 2 ^ 4) (hj : j < 4) :
    (2 ^ 4 * q + r).testBit j = r.testBit j := by
  rw [Nat.testBit_mul_pow_two_add q hr j, if_pos hj]

/-- A low bit survives reduction modulo `2 ^ 4`. -/
theorem mod_low_bit_eq (s j : Nat) (hj : j < 4) : (s % 2 ^ 4).testBit j = s.testBit j := by
  rw [Nat.testBit_mod_two_pow]
  simp [hj]

/-- Adding 8 to a value below 8 does not change bits 0 to 2. -/
theorem add_eight_low_bit_eq (r j : Nat) (hr : r < 8) (hj : j < 3) :
    (r + 8).testBit j = r.testBit j := by
  rw [show r + 8 = 2 ^ 3 * 1 + r by omega,
    Nat.testBit_mul_pow_two_add 1 (show r < 2 ^ 3 by omega) j, if_pos hj]

/-! ## Claims about the tick channel -/

/-- C5: for every state word with the `COMPLETE` bit set, `send_tick` returns
`Err(Canceled)` and aborts without mutating the state word (counter,
`RX_LOCK` and all other flag bits unchanged), and without notifying. -/
theorem send_tick_canceled_frame (rx_task : Option Unit) (s : Nat)
    (hc : s &&& Tick.COMPLETE ≠ 0) :
    (Tick.send_tick rx_task s).result = Except.error Tick.SendTickError.Canceled ∧
    (Tick.send_tick rx_task s).state = s ∧
    (Tick.send_tick rx_task s).notified = false := by
  rw [send_tick_canceled_eq rx_task s hc]
  exact ⟨rfl, rfl, rfl⟩

/-- C5 witness: a concrete completed state word. -/
theorem send_tick_canceled_frame_witness :
    (Tick.send_tick none 4).result = Except.error Tick.SendTickError.Canceled ∧
    (Tick.send_tick none 4).state = 4 := by
  have h := send_tick_canceled_frame none 4 (by decide)
  exact ⟨h.1, h.2.1⟩

/-- C1: for state words with `COMPLETE` clear (completion takes precedence,
claim C5), `send_tick` detects overflow by signed-shift arithmetic: it
returns `Err(Overflow)` exactly when the arithmetically right-shifted state
word, incremented by one with wrapping, wraps to zero, which happens exactly
when the payload counter held its maximum all-ones value; on overflow the
state word is left unchanged, so the pre-overflow count remains
observable. -/
theorem send_tick_overflow_signed_shift (rx_task : Option Unit) (s : Nat)
    (hs : s < 2 ^ 64) (hc : s &&& Tick.COMPLETE = 0) :
    ((Tick.send_tick rx_task s).result = Except.error Tick.SendTickError.Overflow ↔
      (Tick.asr s Tick.LOCK_BITS + 1) % 2 ^ 64 = 0) ∧
    ((Tick.asr s Tick.LOCK_BITS + 1) % 2 ^ 64 = 0 ↔
      s >>> Tick.LOCK_BITS = 2 ^ 60 - 1) ∧
    ((Tick.send_tick rx_task s).result = Except.error Tick.SendTickError.Overflow →
      (Tick.send_tick rx_task s).state = s) := by
  have hsr : s >>> Tick.LOCK_BITS = s / 2 ^ 4 := by
    simp only [Tick.LOCK_BITS]
    exact Nat.shiftRight_eq_div_pow s 4
  have hiff := asr_succ_mod_eq_zero_iff s hs
  have h2 : (Tick.asr s Tick.LOCK_BITS + 1) % 2 ^ 64 = 0 ↔
      s >>> Tick.LOCK_BITS = 2 ^ 60 - 1 := by
    rw [hsr]
    exact hiff
  by_cases hm : s / 2 ^ 4 = 2 ^ 60 - 1
  · rw [send_tick_overflow_eq rx_task s hs hc hm]
    exact ⟨⟨fun _ => hiff.mpr hm, fun _ => rfl⟩, h2, fun _ => rfl⟩
  · rw [send_tick_success_eq rx_task s hs hc hm]
    exact ⟨⟨fun hres => absurd hres (by simp), fun hwrap => absurd (hiff.mp hwrap) hm⟩,
      h2, fun hres => absurd hres (by simp)⟩

/-- C1 witness: the all-ones payload counter at state `2 ^ 64 - 16`. -/
theorem send_tick_overflow_signed_shift_witness :
    (Tick.send_tick none (2 ^ 64 - 16)).result =
      Except.error Tick.SendTickError.Overflow ∧
    (Tick.send_tick none (2 ^ 64 - 16)).state = 2 ^ 64 - 16 := by
  have h := send_tick_overflow_signed_shift none (2 ^ 64 - 16) (by norm_num) (by decide)
  have hov : (Tick.send_tick none (2 ^ 64 - 16)).result =
      Except.error Tick.SendTickError.Overflow := h.1.mpr (by decide)
  exact ⟨hov, h.2.2 hov⟩

/-- C2: on a successful `send_tick` (channel open, counter not at its
maximum), a call whose CAS transitions `RX_LOCK` from 0 to 1 commits a state
with `RX_LOCK` set, performs the notification of the stored continuation, and
clears `RX_LOCK` in the follow-up update (the final state has `RX_LOCK`
clear); a call that observes `RX_LOCK` already set still increments the
counter, performs no notification and leaves `RX_LOCK` as it was. -/
theorem send_tick_rx_lock_protocol (rx_task : Option Unit) (s : Nat)
    (hs : s < 2 ^ 64) (hc : s &&& Tick.COMPLETE = 0)
    (hne : s >>> Tick.LOCK_BITS ≠ 2 ^ 60 - 1) :
    (s &&& Tick.RX_LOCK = 0 →
      ∃ st, Tick.send_tick_transform s = Except.ok (st, some st) ∧
        st.testBit 3 = true ∧
        (Tick.send_tick rx_task s).notified = rx_task.isSome ∧
        (Tick.send_tick rx_task s).state = st ^^^ Tick.RX_LOCK ∧
        (Tick.send_tick rx_task s).state.testBit 3 = false) ∧
    (s &&& Tick.RX_LOCK ≠ 0 →
      ∃ st, Tick.send_tick_transform s = Except.ok (st, none) ∧
        (Tick.send_tick rx_task s).notified = false ∧
        (Tick.send_tick rx_task s).state = st ∧
        st.testBit 3 = s.testBit 3 ∧
        st >>> Tick.LOCK_BITS = s >>> Tick.LOCK_BITS + 1) := by
  have hsr : s >>> Tick.LOCK_BITS = s / 2 ^ 4 := by
    simp only [Tick.LOCK_BITS]
    exact Nat.shiftRight_eq_div_pow s 4
  have hne' : s / 2 ^ 4 ≠ 2 ^ 60 - 1 := by
    rw [← hsr]
    exact hne
  constructor
  · intro h3
    have hlow : s % 2 ^ 4 < 8 := by
      have hb := (and_two_pow_eq_zero_iff s 3).mp
        (by rw [show (2 : Nat) ^ 3 = Tick.RX_LOCK from rfl]; exact h3)
      rw [Nat.testBit_to_div_mod, decide_eq_false_iff_not] at hb
      omega
    refine ⟨2 ^ 4 * (s / 2 ^ 4 + 1) + (s % 2 ^ 4 + 8), ?_, ?_, ?_, ?_, ?_⟩
    · rw [send_tick_transform_success s hs hc hne', if_pos h3]
    · rw [state_low_bit_eq _ _ 3 (by omega) (by norm_num), Nat.testBit_to_div_mod]
      simp only [decide_eq_true_eq]
      omega
    · rw [send_tick_success_eq rx_task s hs hc hne']
      simp [h3]
    · rw [send_tick_success_eq rx_task s hs hc hne']
      show 2 ^ 4 * (s / 2 ^ 4 + 1) + s % 2 ^ 4 =
        (2 ^ 4 * (s / 2 ^ 4 + 1) + (s % 2 ^ 4 + 8)) ^^^ Tick.RX_LOCK
      rw [show Tick.RX_LOCK = (8 : Nat) from rfl,
        mul_pow_add_xor_eight (s / 2 ^ 4 + 1) (s % 2 ^ 4) hlow]
    · rw [send_tick_success_eq rx_task s hs hc hne']
      show (2 ^ 4 * (s / 2 ^ 4 + 1) + s % 2 ^ 4).testBit 3 = false
      rw [state_low_bit_eq _ _ 3 (by omega) (by norm_num)]
      exact Nat.testBit_lt_two_pow (show s % 2 ^ 4 < 2 ^ 3 by omega)
  · intro h3
    refine ⟨2 ^ 4 * (s / 2 ^ 4 + 1) + s % 2 ^ 4, ?_, ?_, ?_, ?_, ?_⟩
    · rw [send_tick_transform_success s hs hc hne', if_neg h3]
    · rw [send_tick_success_eq rx_task s hs hc hne']
      simp [h3]
    · rw [send_tick_success_eq rx_task s hs hc hne']
    · rw [state_low_bit_eq _ _ 3 (Nat.mod_lt s (by norm_num)) (by norm_num)]
      exact mod_low_bit_eq s 3 (by norm_num)
    · rw [hsr]
      simp only [Tick.LOCK_BITS, Nat.shiftRight_eq_div_pow]
      have hr4 : s % 2 ^ 4 < 2 ^ 4 := Nat.mod_lt s (by norm_num)
      omega

/-- C2 witness: state 0 with a stored continuation acquires the lock,
notifies, and ends with `RX_LOCK` clear. -/
theorem send_tick_rx_lock_protocol_witness :
    (Tick.send_tick (some ()) 0).notified = true ∧
    (Tick.send_tick (some ()) 0).state.testBit 3 = false := by
  have h := send_tick_rx_lock_protocol (some ()) 0 (by norm_num) (by decide) (by decide)
  obtain ⟨st, _, _, h3, _, h5⟩ := h.1 (by decide)
  exact ⟨h3, h5⟩

/-- C6: on a state with `COMPLETE` clear and the payload counter strictly
below its maximum, the state committed by the `send_tick` CAS has payload
counter exactly one more than before, the `COMPLETE`, `TX_WAKER_STORED` and
`RX_WAKER_STORED` bits unchanged, and the only flag bit it may change is
`RX_LOCK`, only from 0 to 1. -/
theorem send_tick_frame_effect (s : Nat) (hs : s < 2 ^ 64)
    (hc : s &&& Tick.COMPLETE = 0)
    (hmax : s >>> Tick.LOCK_BITS < 2 ^ 60 - 1) :
    ∃ st a, Tick.send_tick_transform s = Except.ok (st, a) ∧
      st >>> Tick.LOCK_BITS = s >>> Tick.LOCK_BITS + 1 ∧
      st.testBit 0 = s.testBit 0 ∧
      st.testBit 1 = s.testBit 1 ∧
      st.testBit 2 = s.testBit 2 ∧
      (s.testBit 3 = true → st.testBit 3 = true) := by
  have hsr : s >>> Tick.LOCK_BITS = s / 2 ^ 4 := by
    simp only [Tick.LOCK_BITS]
    exact Nat.shiftRight_eq_div_pow s 4
  have hne' : s / 2 ^ 4 ≠ 2 ^ 60 - 1 := by
    rw [← hsr]
    omega
  have hr4 : s % 2 ^ 4 < 2 ^ 4 := Nat.mod_lt s (by norm_num)
  have hdiv : (2 ^ 4 * (s / 2 ^ 4 + 1) + s % 2 ^ 4) >>> Tick.LOCK_BITS =
      s >>> Tick.LOCK_BITS + 1 := by
    rw [hsr]
    simp only [Tick.LOCK_BITS, Nat.shiftRight_eq_div_pow]
    omega
  by_cases h3 : s &&& Tick.RX_LOCK = 0
  · have hlow : s % 2 ^ 4 < 8 := by
      have hb := (and_two_pow_eq_zero_iff s 3).mp
        (by rw [show (2 : Nat) ^ 3 = Tick.RX_LOCK from rfl]; exact h3)
      rw [Nat.testBit_to_div_mod, decide_eq_false_iff_not] at hb
      omega
    have hbit3 : s.testBit 3 = false := by
      have hb := (and_two_pow_eq_zero_iff s 3).mp
        (by rw [show (2 : Nat) ^ 3 = Tick.RX_LOCK from rfl]; exact h3)
      exact hb
    refine ⟨2 ^ 4 * (s / 2 ^ 4 + 1) + (s % 2 ^ 4 + 8),
      some (2 ^ 4 * (s / 2 ^ 4 + 1) + (s % 2 ^ 4 + 8)), ?_, ?_, ?_, ?_, ?_, ?_⟩
    · rw [send_tick_transform_success s hs hc hne', if_pos h3]
    · rw [hsr]
      simp only [Tick.LOCK_BITS, Nat.shiftRight_eq_div_pow]
      omega
    · rw [state_low_bit_eq _ _ 0 (by omega) (by norm_num),
        add_eight_low_bit_eq _ 0 hlow (by norm_num), mod_low_bit_eq s 0 (by norm_num)]
    · rw [state_low_bit_eq _ _ 1 (by omega) (by norm_num),
        add_eight_low_bit_eq _ 1 hlow (by norm_num), mod_low_bit_eq s 1 (by norm_num)]
    · rw [state_low_bit_eq _ _ 2 (by omega) (by norm_num),
        add_eight_low_bit_eq _ 2 hlow (by norm_num), mod_low_bit_eq s 2 (by norm_num)]
    · intro habs
      rw [habs] at hbit3
      exact absurd hbit3 (by simp)
  · refine ⟨2 ^ 4 * (s / 2 ^ 4 + 1) + s % 2 ^ 4, none, ?_, hdiv, ?_, ?_, ?_, ?_⟩
    · rw [send_tick_transform_success s hs hc hne', if_neg h3]
    · rw [state_low_bit_eq _ _ 0 hr4 (by norm_num), mod_low_bit_eq s 0 (by norm_num)]
    · rw [state_low_bit_eq _ _ 1 hr4 (by norm_num), mod_low_bit_eq s 1 (by norm_num)]
    · rw [state_low_bit_eq _ _ 2 hr4 (by norm_num), mod_low_bit_eq s 2 (by norm_num)]
    · intro hb
      rw [state_low_bit_eq _ _ 3 hr4 (by norm_num), mod_low_bit_eq s 3 (by norm_num)]
      exact hb

/-- C6 witness: the hypotheses hold at state 0 and the transform commits. -/
theorem send_tick_frame_effect_witness :
    (0 : Nat) < 2 ^ 64 ∧ (Tick.send_tick_transform 0).isOk = true := by
  refine ⟨by norm_num, ?_⟩
  obtain ⟨st, a, h1, _⟩ := send_tick_frame_effect 0 (by norm_num) (by decide) (by decide)
  rw [h1]
  rfl

/-- C3: for every error value, if the channel is not complete,
`Sender::send_err` stores the value in the error cell, sets `COMPLETE`, wakes
a registered consumer, and returns `Ok(())`; if the channel is already
complete it returns the value back to the caller and leaves the error cell
unchanged. -/
theorem tick_send_err_contract (E : Type) (e : E) (i : Tick.Inner E) :
    (i.state &&& Tick.COMPLETE = 0 →
      (Tick.Sender.send_err (Tick.Sender.mk i) e).1 = Except.ok () ∧
      (Tick.Sender.send_err (Tick.Sender.mk i) e).2.1.err = some e ∧
      (Tick.Sender.send_err (Tick.Sender.mk i) e).2.1.state &&& Tick.COMPLETE ≠ 0 ∧
      (Tick.Sender.send_err (Tick.Sender.mk i) e).2.2 = i.rx_task.isSome) ∧
    (i.state &&& Tick.COMPLETE ≠ 0 →
      (Tick.Sender.send_err (Tick.Sender.mk i) e).1 = Except.error e ∧
      (Tick.Sender.send_err (Tick.Sender.mk i) e).2.1.err = i.err) := by
  constructor
  · intro h
    have hcanc : i.is_canceled = false := by
      simp [Tick.Inner.is_canceled, h]
    simp only [Tick.Sender.send_err, Tick.Inner.send_err, hcanc, Bool.false_eq_true,
      if_false, Tick.Inner.drop_tx]
    refine ⟨trivial, trivial, ?_, trivial⟩
    show (i.state ||| Tick.COMPLETE) &&& Tick.COMPLETE ≠ 0
    rw [show Tick.COMPLETE = 2 ^ 2 from rfl]
    exact lor_two_pow_and_ne_zero i.state 2
  · intro h
    have hcanc : i.is_canceled = true := by
      simp [Tick.Inner.is_canceled, h]
    simp only [Tick.Sender.send_err, Tick.Inner.send_err, hcanc, if_true,
      Tick.Inner.drop_tx]
    exact ⟨trivial, trivial⟩

/-- C3 witness: an open channel with a stored consumer continuation. -/
theorem tick_send_err_contract_witness :
    (Tick.Sender.send_err (Tick.Sender.mk (Tick.Inner.mk 0 none (some ()))) (37 : Nat)).1 =
      Except.ok () ∧
    (Tick.Sender.send_err (Tick.Sender.mk (Tick.Inner.mk 0 none (some ()))) 37).2.1.err =
      some 37 ∧
    (Tick.Sender.send_err (Tick.Sender.mk (Tick.Inner.mk 0 none (some ()))) 37).2.2 = true := by
  have h := tick_send_err_contract Nat 37 (Tick.Inner.mk 0 none (some ()))
  obtain ⟨h1, h2, _, h4⟩ := h.1 (by decide)
  exact ⟨h1, h2, h4⟩

/-! ## Claims about Pulse, Bits and Responder -/

/-- C4 counterexample: the constant `MAX_CAPACITY` written in the source is
`1 << (W - 3)`, not `2 ^ (W - 3) - 1` as the claim states (`W = 64`). -/
theorem max_capacity_ne_two_pow_sub_one : ¬ Pulse.MAX_CAPACITY = 2 ^ (64 - 3) - 1 := by
  decide

/-- C4 (amended): `MAX_CAPACITY` equals `2 ^ (W - 3)` for the platform word
width `W = 64` — one more than the largest value the `(W - 3)`-bit payload
counter can hold. -/
theorem max_capacity_eq_two_pow : Pulse.MAX_CAPACITY = 2 ^ (64 - 3) := by
  decide

/-- C7: the pulse state word packs `TX_WAKER_STORED` at bit 0 (value 1),
`RX_WAKER_STORED` at bit 1 (value 2) and `COMPLETE` at bit 2 (value 4); the
three masks are pairwise disjoint and disjoint from the payload bits (every
payload value shifted up by `OPTION_BITS` has empty intersection with the
flag masks). -/
theorem pulse_flag_layout :
    Pulse.TX_WAKER_STORED = 1 ∧ Pulse.RX_WAKER_STORED = 2 ∧ Pulse.COMPLETE = 4 ∧
    Pulse.TX_WAKER_STORED &&& Pulse.RX_WAKER_STORED = 0 ∧
    Pulse.TX_WAKER_STORED &&& Pulse.COMPLETE = 0 ∧
    Pulse.RX_WAKER_STORED &&& Pulse.COMPLETE = 0 ∧
    ∀ payload : Nat,
      (payload <<< Pulse.OPTION_BITS) &&&
        (Pulse.TX_WAKER_STORED ||| Pulse.RX_WAKER_STORED ||| Pulse.COMPLETE) = 0 := by
  refine ⟨rfl, rfl, rfl, rfl, rfl, rfl, fun payload => ?_⟩
  show (payload <<< 3) &&& 7 = 0
  rw [Nat.shiftLeft_eq, show (7 : Nat) = 2 ^ 3 - 1 from rfl,
    Nat.and_pow_two_sub_one_eq_mod]
  exact Nat.mul_mod_left payload (2 ^ 3)

/-- C8: the pulse channel constructor returns a sender/receiver pair sharing
one freshly allocated block whose state word is `0` and whose error cell is
empty. -/
theorem pulse_channel_shared_zero (E : Type) :
    (Pulse.channel E).1.inner = (Pulse.channel E).2.inner ∧
    (Pulse.channel E).1.inner.state = 0 ∧
    (Pulse.channel E).1.inner.err = none :=
  ⟨rfl, rfl, rfl⟩

/-- C9: for each of `u8`, `u16`, `u32`, `u64`, `width()` is eight times the
byte size of the type, `one()` is `1`, and `from_usize` reduces its argument
modulo `2 ^ width`. -/
theorem bits_impl_ops :
    (Bits.u8.width = 8 * Bits.u8.size_of ∧ Bits.u8.width = 8 ∧ Bits.u8.one = 1 ∧
      ∀ n, Bits.u8.from_usize n = n % 2 ^ Bits.u8.width) ∧
    (Bits.u16.width = 8 * Bits.u16.size_of ∧ Bits.u16.width = 16 ∧ Bits.u16.one = 1 ∧
      ∀ n, Bits.u16.from_usize n = n % 2 ^ Bits.u16.width) ∧
    (Bits.u32.width = 8 * Bits.u32.size_of ∧ Bits.u32.width = 32 ∧ Bits.u32.one = 1 ∧
      ∀ n, Bits.u32.from_usize n = n % 2 ^ Bits.u32.width) ∧
    (Bits.u64.width = 8 * Bits.u64.size_of ∧ Bits.u64.width = 64 ∧ Bits.u64.one = 1 ∧
      ∀ n, Bits.u64.from_usize n = n % 2 ^ Bits.u64.width) :=
  ⟨⟨rfl, rfl, rfl, fun _ => rfl⟩, ⟨rfl, rfl, rfl, fun _ => rfl⟩,
    ⟨rfl, rfl, rfl, fun _ => rfl⟩, ⟨rfl, rfl, rfl, fun _ => rfl⟩⟩

/-- C10: `NoResp.respond` returns `()` and `PlainResp(t).respond` returns the
contained value `t`; in both cases the output does not depend on the session
argument. -/
theorem responder_respond_const {S T : Type} (r : Responder.NoResp) (t : T) (s1 s2 : S) :
    Responder.NoResp.respond r s1 = () ∧
    Responder.PlainResp.respond (Responder.PlainResp.mk t) s1 = t ∧
    Responder.NoResp.respond r s1 = Responder.NoResp.respond r s2 ∧
    Responder.PlainResp.respond (Responder.PlainResp.mk t) s1 =
      Responder.PlainResp.respond (Responder.PlainResp.mk t) s2 :=
  ⟨rfl, rfl, rfl, rfl⟩

end DroneCore
